import Mathlib

/-!
Verification of the youddit synchronizer (`main.py`)

A shallow embedding of the single source file `main.py` of the youddit
repository, together with proofs about its specification claims.

The program scans a subreddit feed for YouTube links, extracts video
identifiers with a regular expression, reads the current contents of a
YouTube playlist through cursor-based pagination, computes the set
difference, and inserts each missing identifier, aborting the run on a
quota-exhaustion error (HTTP 403 whose reason mentions "quota").

Modelling notes:
* External services (reddit, YouTube) are modelled as explicit inputs:
  the reddit client is a record of the five ordering endpoints, the
  playlist service is the finite list of page responses the upstream
  returns, and the insertion endpoint is a function from video id to
  its HTTP outcome.
* The regular expression
  `^((?:https?:)?\/\/)?((?:www|m)\.)?((?:youtube\.com|youtu.be))(\/(?:[\w\-]+\?v=|embed\/|v\/)?)([\w\-]+)(\S+)?$`
  applied with `re.match` (group 5 extracted) is embedded as a direct
  functional parser over `List Char`.  Python's leftmost/greedy
  backtracking semantics is implemented exactly; at the points where the
  pattern is deterministic (the scheme, subdomain and host alternatives
  have pairwise-incompatible follow sets) the backtracking collapses to
  a first-match chain, which the comments below justify case by case.
  Word characters are modelled over the ASCII range used by the video
  identifiers the specification is about.
-/

namespace Youddit

/-! ## URL Matcher (`youtube_re` and `re.match(...)  .group(5)` in `main.py`) -/

/-- Pattern class `\w`: ASCII letters, digits and underscore. -/
def isWordChar (c : Char) : Bool := c.isAlphanum || c == '_'

/-- The character class `[\w\-]` used for the identifier token. -/
def isIdChar (c : Char) : Bool := isWordChar c || c == '-'

/-- Pattern class `\s` (so `\S` is its negation): ASCII whitespace as in Python. -/
def isSpaceChar (c : Char) : Bool :=
  c == ' ' || c == '\t' || c == '\n' || c == '\r' || c == Char.ofNat 11 || c == Char.ofNat 12

/-- Match a literal sequence of characters at the front of the input and
return the remainder, or `none` when the input does not start with it. -/
def dropLit : List Char → List Char → Option (List Char)
  | [], s => some s
  | _, [] => none
  | a :: as, b :: bs => if a = b then dropLit as bs else none

/-- Greedy span of a character class, as a `+`/`*` repetition performs it:
the maximal run satisfying `p`, paired with the rest. -/
def spanP (p : Char → Bool) : List Char → List Char × List Char
  | [] => ([], [])
  | c :: rest =>
      if p c then
        let s := spanP p rest
        (c :: s.1, s.2)
      else ([], c :: rest)

/-- Group 1, `((?:https?:)?\/\/)?`: optional scheme part.  The follow set of this
group starts with `w`, `m` or `y` (subdomain or host), none of which is a
prefix of `https://`, `http://` or `//`, so the greedy first-match chain
is exactly the backtracking behaviour. -/
def skipScheme (s : List Char) : List Char :=
  match dropLit "https://".data s with
  | some r => r
  | none =>
    match dropLit "http://".data s with
    | some r => r
    | none =>
      match dropLit "//".data s with
      | some r => r
      | none => s

/-- Group 2, `((?:www|m)\.)?`: optional subdomain.  The host that follows starts
with `y`, so the greedy choice never needs to be undone. -/
def skipSub (s : List Char) : List Char :=
  match dropLit "www.".data s with
  | some r => r
  | none =>
    match dropLit "m.".data s with
    | some r => r
    | none => s

/-- Group 3, `((?:youtube\.com|youtu.be))`: the host.  The `.` in `youtu.be` is an
unescaped wildcard matching any character except a newline.  A string
beginning with `youtube.com` can never match the second alternative
(position 6 would need to be `b` but is `e`), so trying the alternatives
in order with no continuation backtracking is faithful. -/
def dropHost (s : List Char) : Option (List Char) :=
  match dropLit "youtube.com".data s with
  | some r => some r
  | none =>
    match s with
    | 'y' :: 'o' :: 'u' :: 't' :: 'u' :: c :: 'b' :: 'e' :: r =>
        if c = '\n' then none else some r
    | _ => none

/-- Anchor `$` of the pattern: end of input, or just before a single trailing
newline (Python's non-MULTILINE `$`). -/
def endAnchor (v : List Char) : Bool := v.isEmpty || v == ['\n']

/-- Groups `(\S+)?$`: the rest of the input is empty, or a nonempty run of
non-whitespace characters followed by the end anchor. -/
def restOk (rest : List Char) : Bool :=
  endAnchor rest ||
    (let s := spanP (fun c => !isSpaceChar c) rest
     !s.1.isEmpty && endAnchor s.2)

/-- Groups `([\w\-]+)(\S+)?$`: the capture of group 5 followed by the optional
trailing junk.  The identifier run is the greedy maximal one: giving
characters back to `(\S+)?` can never turn a failing `$` into a success
because the blocking whitespace stays in the remainder either way. -/
def tailMatch (r : List Char) : Option (List Char) :=
  let s := spanP isIdChar r
  if s.1.isEmpty then none
  else if restOk s.2 then some s.1 else none

/-- The inner alternation of group 4, `(?:[\w\-]+\?v=|embed\/|v\/)`,
returning the remainder after the matched alternative.  At most one of
the three alternatives can match a given input (a run followed by `?v=`
excludes a following `/`, and `embed/` and `v/` differ in their first
character), so a first-match chain realises the ordered alternation. -/
def formSplit (r : List Char) : Option (List Char) :=
  let s := spanP isIdChar r
  match (if s.1.isEmpty then none else dropLit "?v=".data s.2) with
  | some r1 => some r1
  | none =>
    match dropLit "embed/".data r with
    | some r1 => some r1
    | none => dropLit "v/".data r

/-- Group 4 after its mandatory `/`, then groups 5 and 6.  When one of
the three path-form alternatives matches but the continuation fails, the
engine backtracks to the empty alternative of `(?:...)?` — hence the
fallback to `tailMatch r`. -/
def afterSlash (r : List Char) : Option (List Char) :=
  match formSplit r with
  | some r1 =>
    match tailMatch r1 with
    | some v => some v
    | none => tailMatch r
  | none => tailMatch r

/-- The full anchored pattern, returning the characters of capture
group 5 (the video identifier) exactly as `re.match(youtube_re, url)`
followed by `match.group(5)` does. -/
def re_match_list (s : List Char) : Option (List Char) :=
  match dropHost (skipSub (skipScheme s)) with
  | none => none
  | some r =>
    match r with
    | '/' :: r1 => afterSlash r1
    | _ => none

/-- String-level URL matcher used by the feed scan. -/
def re_match_youtube (url : String) : Option String :=
  (re_match_list url.data).map (fun l => String.mk l)

/-! ## Recognized link shapes (the specification's four URL forms)

The specification recognizes four link shapes — canonical
`/watch?v=ID`, shortlink `youtu.be/ID`, `/embed/ID` and `/v/ID` — each
with an optional `http`/`https` scheme, an optional `www.` or `m.`
subdomain and optional trailing query text after the identifier.  These
definitions render such a shape as a concrete URL so that claims
quantifying over "every URL in one of the four shapes" can be stated. -/

/-- Scheme choice: absent, `https://`, or `http://`. -/
def schemeChars : Option Bool → List Char
  | none => []
  | some true => "https://".data
  | some false => "http://".data

/-- Subdomain choice: absent, `www.`, or `m.`. -/
def subChars : Option Bool → List Char
  | none => []
  | some true => "www.".data
  | some false => "m.".data

/-- The four recognized link shapes. -/
inductive UrlForm
  | watch
  | short
  | embed
  | vpath
deriving DecidableEq

/-- Host-plus-path prefix of each shape, up to the identifier. -/
def formChars : UrlForm → List Char
  | .watch => "youtube.com/watch?v=".data
  | .short => "youtu.be/".data
  | .embed => "youtube.com/embed/".data
  | .vpath => "youtube.com/v/".data

/-- A URL in one of the four recognized shapes. -/
def renderUrl (sch sub : Option Bool) (f : UrlForm) (vid trail : List Char) : List Char :=
  schemeChars sch ++ subChars sub ++ formChars f ++ vid ++ trail

/-- A well-formed identifier: a nonempty token of alphanumerics, `-`
and `_`. -/
def validVid (vid : List Char) : Prop :=
  vid ≠ [] ∧ ∀ c ∈ vid, isIdChar c = true

instance (vid : List Char) : Decidable (validVid vid) := by
  unfold validVid; infer_instance

/-- Well-formed trailing query text: absent, or non-whitespace text that
starts with a character that cannot extend the identifier token. -/
def validTrail : List Char → Prop
  | [] => True
  | c :: rest => isIdChar c = false ∧ isSpaceChar c = false ∧ ∀ d ∈ rest, isSpaceChar d = false

instance (trail : List Char) : Decidable (validTrail trail) := by
  cases trail <;> unfold validTrail <;> infer_instance

/-! ## Feed Reader (`reddit_retrieve_submissions`, `main.py` 29–49) -/

/-- A reddit submission as far as the program looks at it: its `url`
field. -/
structure Submission where
  url : String
deriving DecidableEq

/-- The reddit client, as the five ordering endpoints the program can
query; each takes the `limit` passed as `limit=MAX_VIDEOS` and returns
the submissions the service supplies. -/
structure RedditClient where
  hot : Nat → List Submission
  new : Nat → List Submission
  top : Nat → List Submission
  controversial : Nat → List Submission
  rising : Nat → List Submission

/-- The chained conditional dispatch on `SEARCH_TYPE` (`main.py` 38–42):
`top`, `new`, `controversial`, `rising` in that order, defaulting to
`hot` for anything else. -/
def select_submissions (search_type : String) (client : RedditClient) (limit : Nat) :
    List Submission :=
  if search_type = "top" then client.top limit
  else if search_type = "new" then client.new limit
  else if search_type = "controversial" then client.controversial limit
  else if search_type = "rising" then client.rising limit
  else client.hot limit

/-- The feed scan: run the URL matcher over every submission returned by
the selected endpoint, keep `match.group(5)` of those that match, and
collect the results into a set (`output_submissions` is a Python set). -/
def reddit_retrieve_submissions (search_type : String) (max_videos : Nat)
    (client : RedditClient) : Finset String :=
  ((select_submissions search_type client max_videos).filterMap
      (fun s => re_match_youtube s.url)).toFinset

/-- The module constant `SEARCH_OPTIONS` (`main.py` 23). -/
def SEARCH_OPTIONS : List String := ["hot", "new", "top", "controversial", "rising"]

/-! ## Playlist Reader (`get_current_playlist_videos`, `main.py` 88–108) -/

/-- One upstream response of `playlistItems().list`: the video ids of
its items and the optional continuation cursor. -/
structure Page where
  items : List String
  nextPageToken : Option String
deriving DecidableEq

/-- One issued `playlistItems().list` request: the `maxResults` bound
and the `pageToken` sent (none for the first call). -/
structure ListRequest where
  maxResults : Nat
  pageToken : Option String
deriving DecidableEq

/-- The `while next_page_token:` loop.  `pages` is the finite sequence
of responses the upstream returns to the successive follow-up calls; a
response chain that dangles past the provided list is outside the
model.  Returns the identifiers collected and the requests issued. -/
def pageLoop : Option String → List Page → Finset String × List ListRequest
  | none, _ => (∅, [])
  | some _, [] => (∅, [])
  | some t, p :: rest =>
      let s := pageLoop p.nextPageToken rest
      (p.items.toFinset ∪ s.1, ⟨50, some t⟩ :: s.2)

/-- The playlist enumeration: a first call with no token, then the
cursor loop.  Returns the set of video ids of all pages together with
the list of requests issued (each with `maxResults=50`). -/
def get_current_playlist_videos : List Page → Finset String × List ListRequest
  | [] => (∅, [])
  | p :: rest =>
      let s := pageLoop p.nextPageToken rest
      (p.items.toFinset ∪ s.1, ⟨50, none⟩ :: s.2)

/-! ## Playlist Writer (`insert_playlist_videos`, `main.py` 111–131) -/

/-- Outcome of one upstream `playlistItems().insert` request: success,
or an `HttpError` carrying `e.resp.status` and `e._get_reason()`. -/
inductive InsertResult
  | success
  | httpError (status : Nat) (reason : String)
deriving DecidableEq

/-- Python's `str.strip()`: remove leading and trailing whitespace. -/
def pyStrip (l : List Char) : List Char :=
  ((l.dropWhile isSpaceChar).reverse.dropWhile isSpaceChar).reverse

/-- Python's `'quota' in reason.strip()`: substring containment. -/
def hasSub (needle : List Char) : List Char → Bool
  | [] => needle.isEmpty
  | c :: rest => (dropLit needle (c :: rest)).isSome || hasSub needle rest

/-- The fatal-failure test of `main.py` 129:
`e.resp.status == 403 and 'quota' in e._get_reason().strip()`. -/
def isQuotaError (status : Nat) (reason : String) : Bool :=
  status == 403 && hasSub "quota".data (pyStrip reason.data)

/-- What one call of `insert_playlist_videos` does, seen from the
caller: the insertion succeeded, or the `HttpError` was logged as a
warning and swallowed (`skipped`), or it was the 403/quota variant and
the process exits with code 1 (`fatalQuota`). -/
inductive WriterResult
  | inserted
  | skipped
  | fatalQuota
deriving DecidableEq

/-- The function `insert_playlist_videos` for one video id, with the insertion
endpoint's outcome supplied by `env`. -/
def insert_playlist_videos (env : String → InsertResult) (video_id : String) : WriterResult :=
  match env video_id with
  | .success => .inserted
  | .httpError st reason => if isQuotaError st reason then .fatalQuota else .skipped

/-! ## Synchronizer (`build_playlist`, `main.py` 134–146, and `run`) -/

/-- Observable trace of the insertion loop: the ids the writer was
invoked on (in order), the ids whose insertion succeeded, and the exit
code when `sys.exit(1)` aborted the loop. -/
structure LoopTrace where
  invoked : List String
  succeeded : List String
  exitCode : Option Nat
deriving DecidableEq

/-- The `for video in submissions_to_add:` loop of `build_playlist`.
A `fatalQuota` outcome is `sys.exit(1)` inside the callee: the video
was invoked, nothing further runs. -/
def insert_loop (env : String → InsertResult) : List String → LoopTrace
  | [] => ⟨[], [], none⟩
  | v :: rest =>
    match insert_playlist_videos env v with
    | .fatalQuota => ⟨[v], [], some 1⟩
    | .inserted =>
        let t := insert_loop env rest
        ⟨v :: t.invoked, v :: t.succeeded, t.exitCode⟩
    | .skipped =>
        let t := insert_loop env rest
        ⟨v :: t.invoked, t.succeeded, t.exitCode⟩

/-- The function `build_playlist`: read the playlist (membership set `M`), read the
feed (candidate set `C`), compute `to_add = C − M`, and drive the writer
over `to_add`.  Returns the two sets read and the loop trace.  Python
iterates the set in an arbitrary implementation order; the model fixes
one concrete enumeration of the set difference (the deduplicated
candidate list filtered by non-membership in `M`; its `toFinset` is
proved equal to `C \ M` below). -/
def candidate_list (search_type : String) (max_videos : Nat) (rclient : RedditClient) :
    List String :=
  (select_submissions search_type rclient max_videos).filterMap
    (fun s => re_match_youtube s.url)

/-- The enumeration of `submissions_to_add = C − M` the loop iterates. -/
def to_add_list (pages : List Page) (search_type : String) (max_videos : Nat)
    (rclient : RedditClient) : List String :=
  (candidate_list search_type max_videos rclient).dedup.filter
    (fun x => decide (x ∉ (get_current_playlist_videos pages).1))

def build_playlist (pages : List Page) (search_type : String) (max_videos : Nat)
    (rclient : RedditClient) (env : String → InsertResult) :
    Finset String × Finset String × LoopTrace :=
  ((get_current_playlist_videos pages).1,
    (candidate_list search_type max_videos rclient).toFinset,
    insert_loop env (to_add_list pages search_type max_videos rclient))

/-- The reddit credential descriptor read from `reddit.json`. -/
structure RedditCreds where
  clientId : String
  clientSecret : String
deriving DecidableEq

/-- The function `create_reddit_client` (`main.py` 52–66): a missing or unreadable
credentials file (`IOError`/`FileNotFoundError`, modelled as `none`) is
logged and the process exits with code 1. -/
def create_reddit_client (creds : Option RedditCreds) : Except Nat RedditCreds :=
  match creds with
  | some c => .ok c
  | none => .error 1

/-- The external world a run interacts with. -/
structure RunEnv where
  redditCreds : Option RedditCreds
  pages : List Page
  rclient : RedditClient
  insertEnv : String → InsertResult

/-- Observable trace of a whole run: the playlist list requests issued,
whether the feed was queried, the writer invocations, the successful
insertions, and the process exit code. -/
structure RunTrace where
  playlistRequests : List ListRequest
  feedQueried : Bool
  invoked : List String
  succeeded : List String
  exitCode : Nat
deriving DecidableEq

/-- The function `run` (`main.py` 149–162): CLI defaults `max_videos=20` and
`order="hot"`, reddit credentials first (exit 1 before any upstream
call when missing), then `build_playlist`.  Falling off the end of the
script is exit code 0; `sys.exit(1)` inside the loop is exit code 1. -/
def run (cliMax : Option Nat) (cliOrder : Option String) (env : RunEnv) : RunTrace :=
  match create_reddit_client env.redditCreds with
  | .error c => ⟨[], false, [], [], c⟩
  | .ok _ =>
      let r := build_playlist env.pages (cliOrder.getD "hot") (cliMax.getD 20)
        env.rclient env.insertEnv
      ⟨(get_current_playlist_videos env.pages).2, true,
        r.2.2.invoked, r.2.2.succeeded, r.2.2.exitCode.getD 0⟩


/-! ## Concrete data used by witnesses and counterexamples -/

/-- An insertion endpoint on which every request succeeds. -/
def envAllOk : String → InsertResult := fun _ => .success

/-- An insertion endpoint on which every request hits the daily quota. -/
def envAllQuota : String → InsertResult := fun _ => .httpError 403 "quotaExceeded"

/-- An insertion endpoint failing with the quota error exactly on `cc`
(the third candidate of `rc5` in enumeration order). -/
def env3 : String → InsertResult :=
  fun v => if v = "cc" then .httpError 403 "quotaExceeded" else .success

/-- An insertion endpoint failing with a transient server error on `bb`. -/
def env500 : String → InsertResult :=
  fun v => if v = "bb" then .httpError 500 "Backend Error" else .success

/-- A feed whose hot listing links two videos. -/
def rc2 : RedditClient :=
  ⟨fun _ => [⟨"https://youtu.be/aa"⟩, ⟨"youtu.be/bb"⟩],
   fun _ => [], fun _ => [], fun _ => [], fun _ => []⟩

/-- A feed whose hot listing links one video. -/
def rc1 : RedditClient :=
  ⟨fun _ => [⟨"https://youtu.be/aa"⟩],
   fun _ => [], fun _ => [], fun _ => [], fun _ => []⟩

/-- A feed whose hot listing links five videos `aa` … `ee`. -/
def rc5 : RedditClient :=
  ⟨fun _ => [⟨"youtu.be/aa"⟩, ⟨"youtu.be/bb"⟩, ⟨"youtu.be/cc"⟩,
             ⟨"youtu.be/dd"⟩, ⟨"youtu.be/ee"⟩],
   fun _ => [], fun _ => [], fun _ => [], fun _ => []⟩

/-- An empty playlist: one page response with no items and no cursor. -/
def pages0 : List Page := [⟨[], none⟩]

/-- A playlist already containing `aa`. -/
def pagesAA : List Page := [⟨["aa"], none⟩]

/-- A page of 50 distinct items with the given prefix and cursor. -/
def page50 (pre : String) (tok : Option String) : Page :=
  ⟨(List.range 50).map (fun i => pre ++ toString i), tok⟩

/-- A 150-item playlist answered over three pages: cursors on pages 1
and 2, none on page 3. -/
def pages3 : List Page := [page50 "a" (some "t1"), page50 "b" (some "t2"), page50 "c" none]

/-- A run environment with missing reddit credentials. -/
def runEnvNone : RunEnv := ⟨none, pages0, rc2, envAllOk⟩

/-- A run environment with credentials present and all writes succeeding. -/
def runEnvOk : RunEnv := ⟨some ⟨"id", "secret"⟩, pages0, rc2, envAllOk⟩

/-- A run environment with five candidates whose third insertion hits
the quota. -/
def runEnv5 : RunEnv := ⟨some ⟨"id", "secret"⟩, pages0, rc5, env3⟩

/-! ## Lemmas about the URL matcher -/

theorem dropLit_self (l s : List Char) : dropLit l (l ++ s) = some s := by
  induction l with
  | nil => simp [dropLit]
  | cons a as ih => simp [dropLit, ih]

theorem dropLit_eq_some {l s r : List Char} : dropLit l s = some r ↔ s = l ++ r := by
  induction l generalizing s with
  | nil => cases s <;> simp [dropLit]
  | cons a as ih =>
    cases s with
    | nil => simp [dropLit]
    | cons b bs =>
      by_cases hab : a = b
      · subst hab
        simp [dropLit, ih]
      · simp [dropLit, hab, Ne.symm hab]

theorem spanP_append (p : Char → Bool) (xs ys : List Char)
    (hx : ∀ c ∈ xs, p c = true) (hy : ∀ d, ys.head? = some d → p d = false) :
    spanP p (xs ++ ys) = (xs, ys) := by
  induction xs with
  | nil =>
    cases ys with
    | nil => rfl
    | cons d t => simp [spanP, hy d rfl]
  | cons c cs ih =>
    have hc : p c = true := hx c (List.mem_cons_self c cs)
    have ih2 := ih (fun x hx2 => hx x (List.mem_cons_of_mem c hx2))
    simp [spanP, hc, ih2]

theorem validTrail_restOk (trail : List Char) (ht : validTrail trail) : restOk trail = true := by
  cases trail with
  | nil => simp [restOk, endAnchor]
  | cons c rest =>
    have hspan : spanP (fun d => !isSpaceChar d) (c :: rest) = (c :: rest, []) := by
      have := spanP_append (fun d => !isSpaceChar d) (c :: rest) []
        (by
          intro x hx
          rcases List.mem_cons.1 hx with h | h
          · subst h; simp [ht.2.1]
          · simp [ht.2.2 x h])
        (by intro d hd; simp at hd)
      simpa using this
    simp [restOk, hspan, endAnchor]

theorem tailMatch_valid (vid trail : List Char) (hv : validVid vid) (ht : validTrail trail) :
    tailMatch (vid ++ trail) = some vid := by
  have hspan : spanP isIdChar (vid ++ trail) = (vid, trail) := by
    refine spanP_append isIdChar vid trail hv.2 ?_
    intro d hd
    cases trail with
    | nil => simp at hd
    | cons c rest =>
      simp at hd
      subst hd
      exact ht.1
  have hne : vid.isEmpty = false := by
    cases vid with
    | nil => exact absurd rfl hv.1
    | cons a l => rfl
  simp [tailMatch, hspan, hne, validTrail_restOk trail ht]

/-- If a literal of the shape `a ++ c :: b` (identifier characters `a`,
then a non-identifier character `c`) matches at the front of
`vid ++ trail` with `vid` an identifier token and `trail` valid trailing
text, then `vid` is exactly `a` and the rest of the literal matched into
`trail`. -/
theorem dropLit_split (a b : List Char) (c : Char) (vid trail r : List Char)
    (hc : isIdChar c = false) (ha : ∀ x ∈ a, isIdChar x = true)
    (hvid : ∀ x ∈ vid, isIdChar x = true) (ht : validTrail trail)
    (h : dropLit (a ++ c :: b) (vid ++ trail) = some r) :
    vid = a ∧ dropLit (c :: b) trail = some r := by
  induction a generalizing vid with
  | nil =>
    cases vid with
    | nil => exact ⟨rfl, by simpa using h⟩
    | cons x vid2 =>
      exfalso
      have hx : isIdChar x = true := hvid x (List.mem_cons_self x vid2)
      have hcx : ¬ (c = x) := by
        intro he
        rw [he, hx] at hc
        exact Bool.noConfusion hc
      simp [dropLit, hcx] at h
  | cons y a2 ih =>
    cases vid with
    | nil =>
      exfalso
      cases trail with
      | nil => simp [dropLit] at h
      | cons d t =>
        have hy : isIdChar y = true := ha y (List.mem_cons_self y a2)
        have hd : isIdChar d = false := ht.1
        have hyd : ¬ (y = d) := by
          intro he
          rw [he, hd] at hy
          exact Bool.false_ne_true hy
        simp [dropLit, hyd] at h
    | cons x vid2 =>
      have hxy : y = x ∨ ¬ (y = x) := em _
      rcases hxy with he | hne
      · subst he
        have h2 : dropLit (a2 ++ c :: b) (vid2 ++ trail) = some r := by
          simpa [dropLit] using h
        have := ih vid2 (fun z hz => ha z (List.mem_cons_of_mem y hz))
          (fun z hz => hvid z (List.mem_cons_of_mem y hz)) h2
        exact ⟨by rw [this.1], this.2⟩
      · exfalso
        simp [dropLit, hne] at h

theorem skipScheme_eq (sch : Option Bool) (r : List Char)
    (h : r.head? = some 'w' ∨ r.head? = some 'm' ∨ r.head? = some 'y') :
    skipScheme (schemeChars sch ++ r) = r := by
  cases sch with
  | some b =>
    cases b with
    | true => simp [schemeChars, skipScheme, dropLit]
    | false => simp [schemeChars, skipScheme, dropLit]
  | none =>
    cases r with
    | nil => simp at h
    | cons c t =>
      have hc : c = 'w' ∨ c = 'm' ∨ c = 'y' := by
        rcases h with h | h | h <;> simp at h <;> simp [h]
      have hch : ¬ ('h' = c) := by rcases hc with h | h | h <;> simp [h]
      have hcs : ¬ ('/' = c) := by rcases hc with h | h | h <;> simp [h]
      simp [schemeChars, skipScheme, dropLit, hch, hcs]

theorem skipSub_eq (sub : Option Bool) (r : List Char) (h : r.head? = some 'y') :
    skipSub (subChars sub ++ r) = r := by
  cases sub with
  | some b =>
    cases b with
    | true => simp [subChars, skipSub, dropLit]
    | false => simp [subChars, skipSub, dropLit]
  | none =>
    cases r with
    | nil => simp at h
    | cons c t =>
      have hc : c = 'y' := by simpa using h
      subst hc
      simp [subChars, skipSub, dropLit]

theorem dropHost_com (r : List Char) : dropHost ("youtube.com".data ++ r) = some r := by
  simp [dropHost, dropLit]

theorem dropHost_be (r : List Char) : dropHost ("youtu.be".data ++ r) = some r := by
  simp [dropHost, dropLit]

/-- Reduction of the full matcher on a URL whose host is `youtube.com`:
everything before the path collapses, leaving the path matcher. -/
theorem re_match_front_com (sch sub : Option Bool) (rest : List Char) :
    re_match_list (schemeChars sch ++ subChars sub ++ "youtube.com".data ++ '/' :: rest) =
      afterSlash rest := by
  have hsub : (subChars sub ++ ("youtube.com".data ++ '/' :: rest)).head? = some 'w' ∨
      (subChars sub ++ ("youtube.com".data ++ '/' :: rest)).head? = some 'm' ∨
      (subChars sub ++ ("youtube.com".data ++ '/' :: rest)).head? = some 'y' := by
    cases sub with
    | none => right; right; simp [subChars]
    | some b => cases b with
      | true => left; simp [subChars]
      | false => right; left; simp [subChars]
  have hy : ("youtube.com".data ++ '/' :: rest).head? = some 'y' := by simp
  simp only [List.append_assoc]
  rw [re_match_list, skipScheme_eq sch _ hsub, skipSub_eq sub _ hy, dropHost_com]
  rfl

/-- Same reduction for host `youtu.be`. -/
theorem re_match_front_be (sch sub : Option Bool) (rest : List Char) :
    re_match_list (schemeChars sch ++ subChars sub ++ "youtu.be".data ++ '/' :: rest) =
      afterSlash rest := by
  have hsub : (subChars sub ++ ("youtu.be".data ++ '/' :: rest)).head? = some 'w' ∨
      (subChars sub ++ ("youtu.be".data ++ '/' :: rest)).head? = some 'm' ∨
      (subChars sub ++ ("youtu.be".data ++ '/' :: rest)).head? = some 'y' := by
    cases sub with
    | none => right; right; simp [subChars]
    | some b => cases b with
      | true => left; simp [subChars]
      | false => right; left; simp [subChars]
  have hy : ("youtu.be".data ++ '/' :: rest).head? = some 'y' := by simp
  simp only [List.append_assoc]
  rw [re_match_list, skipScheme_eq sch _ hsub, skipSub_eq sub _ hy, dropHost_be]
  rfl

/-- Evaluation rule for `formSplit` when the first alternative matches. -/
theorem formSplit_some_a {r run rest r1 : List Char}
    (hspan : spanP isIdChar r = (run, rest)) (hne : run.isEmpty = false)
    (h : dropLit "?v=".data rest = some r1) : formSplit r = some r1 := by
  unfold formSplit
  simp [hspan, hne, h]

/-- Evaluation rule for `formSplit` when only `embed/` matches. -/
theorem formSplit_some_b {r run rest r1 : List Char}
    (hspan : spanP isIdChar r = (run, rest))
    (ha : run.isEmpty = true ∨ dropLit "?v=".data rest = none)
    (hb : dropLit "embed/".data r = some r1) : formSplit r = some r1 := by
  unfold formSplit
  rcases ha with ha | ha <;> simp [hspan, ha, hb]

/-- Evaluation rule for `formSplit` when only `v/` matches. -/
theorem formSplit_some_c {r run rest r1 : List Char}
    (hspan : spanP isIdChar r = (run, rest))
    (ha : run.isEmpty = true ∨ dropLit "?v=".data rest = none)
    (hb : dropLit "embed/".data r = none)
    (hc : dropLit "v/".data r = some r1) : formSplit r = some r1 := by
  unfold formSplit
  rcases ha with ha | ha <;> simp [hspan, ha, hb, hc]

/-- Evaluation rule for `formSplit` when no alternative matches. -/
theorem formSplit_none {r run rest : List Char}
    (hspan : spanP isIdChar r = (run, rest))
    (ha : run.isEmpty = true ∨ dropLit "?v=".data rest = none)
    (hb : dropLit "embed/".data r = none)
    (hc : dropLit "v/".data r = none) : formSplit r = none := by
  unfold formSplit
  rcases ha with ha | ha <;> simp [hspan, ha, hb, hc]

/-- Evaluation rule for `afterSlash` when a path form matched and its
continuation succeeds. -/
theorem afterSlash_some {r r1 v : List Char}
    (h : formSplit r = some r1) (h2 : tailMatch r1 = some v) : afterSlash r = some v := by
  unfold afterSlash
  rw [h]
  show (match tailMatch r1 with | some w => some w | none => tailMatch r) = some v
  rw [h2]

/-- Evaluation rule for `afterSlash` when no path form matched. -/
theorem afterSlash_none {r : List Char}
    (h : formSplit r = none) : afterSlash r = tailMatch r := by
  unfold afterSlash
  rw [h]

/-- The path matcher on a canonical `watch?v=ID...` path. -/
theorem watch_core (vid trail : List Char) (hv : validVid vid) (ht : validTrail trail) :
    afterSlash ("watch?v=".data ++ (vid ++ trail)) = some vid := by
  have h1 : spanP isIdChar ("watch?v=".data ++ (vid ++ trail)) =
      ("watch".data, '?' :: 'v' :: '=' :: (vid ++ trail)) := by
    exact spanP_append isIdChar "watch".data ('?' :: 'v' :: '=' :: (vid ++ trail))
      (by decide) (by intro d hd; simp at hd; rw [← hd]; decide)
  have h2 : formSplit ("watch?v=".data ++ (vid ++ trail)) = some (vid ++ trail) :=
    formSplit_some_a h1 rfl (by simp [dropLit])
  exact afterSlash_some h2 (tailMatch_valid vid trail hv ht)

/-- The path matcher on an `embed/ID...` path. -/
theorem embed_core (vid trail : List Char) (hv : validVid vid) (ht : validTrail trail) :
    afterSlash ("embed/".data ++ (vid ++ trail)) = some vid := by
  have h1 : spanP isIdChar ("embed/".data ++ (vid ++ trail)) =
      ("embed".data, '/' :: (vid ++ trail)) := by
    exact spanP_append isIdChar "embed".data ('/' :: (vid ++ trail))
      (by decide) (by intro d hd; simp at hd; rw [← hd]; decide)
  have h2 : formSplit ("embed/".data ++ (vid ++ trail)) = some (vid ++ trail) :=
    formSplit_some_b h1 (Or.inr (by simp [dropLit])) (dropLit_self "embed/".data (vid ++ trail))
  exact afterSlash_some h2 (tailMatch_valid vid trail hv ht)

/-- The path matcher on a `v/ID...` path. -/
theorem vpath_core (vid trail : List Char) (hv : validVid vid) (ht : validTrail trail) :
    afterSlash ("v/".data ++ (vid ++ trail)) = some vid := by
  have h1 : spanP isIdChar ("v/".data ++ (vid ++ trail)) =
      ("v".data, '/' :: (vid ++ trail)) := by
    exact spanP_append isIdChar "v".data ('/' :: (vid ++ trail))
      (by decide) (by intro d hd; simp at hd; rw [← hd]; decide)
  have h2 : formSplit ("v/".data ++ (vid ++ trail)) = some (vid ++ trail) :=
    formSplit_some_c h1 (Or.inr (by simp [dropLit])) (by simp [dropLit])
      (dropLit_self "v/".data (vid ++ trail))
  exact afterSlash_some h2 (tailMatch_valid vid trail hv ht)

/-- The path matcher on a bare shortlink path `ID...`, under the side
conditions that keep the identifier-plus-trail from re-forming one of
the three path-form prefixes. -/
theorem short_core (vid trail : List Char) (hv : validVid vid) (ht : validTrail trail)
    (h1 : dropLit "?v=".data trail = none)
    (h2 : ¬(vid = "embed".data ∧ trail.head? = some '/'))
    (h3 : ¬(vid = "v".data ∧ trail.head? = some '/')) :
    afterSlash (vid ++ trail) = some vid := by
  have hspan : spanP isIdChar (vid ++ trail) = (vid, trail) := by
    refine spanP_append isIdChar vid trail hv.2 ?_
    intro d hd
    cases trail with
    | nil => simp at hd
    | cons c rest => simp at hd; rw [← hd]; exact ht.1
  have hbe : dropLit "embed/".data (vid ++ trail) = none := by
    cases hb : dropLit "embed/".data (vid ++ trail) with
    | none => rfl
    | some r =>
      exfalso
      have hb2 : dropLit ("embed".data ++ '/' :: []) (vid ++ trail) = some r := hb
      have hsplit := dropLit_split "embed".data [] '/' vid trail r (by decide) (by decide)
        hv.2 ht hb2
      have hhd : trail.head? = some '/' := by
        have he := dropLit_eq_some.1 hsplit.2
        rw [he]
        rfl
      exact h2 ⟨hsplit.1, hhd⟩
  have hv2 : dropLit "v/".data (vid ++ trail) = none := by
    cases hb : dropLit "v/".data (vid ++ trail) with
    | none => rfl
    | some r =>
      exfalso
      have hb2 : dropLit ("v".data ++ '/' :: []) (vid ++ trail) = some r := hb
      have hsplit := dropLit_split "v".data [] '/' vid trail r (by decide) (by decide)
        hv.2 ht hb2
      have hhd : trail.head? = some '/' := by
        have he := dropLit_eq_some.1 hsplit.2
        rw [he]
        rfl
      exact h3 ⟨hsplit.1, hhd⟩
  have hfs : formSplit (vid ++ trail) = none :=
    formSplit_none hspan (Or.inr h1) hbe hv2
  rw [afterSlash_none hfs]
  exact tailMatch_valid vid trail hv ht

/-- Shape decomposition of a rendered canonical-watch URL. -/
theorem renderUrl_watch (sch sub : Option Bool) (vid trail : List Char) :
    renderUrl sch sub .watch vid trail =
      schemeChars sch ++ subChars sub ++ "youtube.com".data ++
        '/' :: ("watch?v=".data ++ (vid ++ trail)) := by
  simp [renderUrl, formChars, List.append_assoc]

/-- Shape decomposition of a rendered shortlink URL. -/
theorem renderUrl_short (sch sub : Option Bool) (vid trail : List Char) :
    renderUrl sch sub .short vid trail =
      schemeChars sch ++ subChars sub ++ "youtu.be".data ++ '/' :: (vid ++ trail) := by
  simp [renderUrl, formChars, List.append_assoc]

/-- Shape decomposition of a rendered embed URL. -/
theorem renderUrl_embed (sch sub : Option Bool) (vid trail : List Char) :
    renderUrl sch sub .embed vid trail =
      schemeChars sch ++ subChars sub ++ "youtube.com".data ++
        '/' :: ("embed/".data ++ (vid ++ trail)) := by
  simp [renderUrl, formChars, List.append_assoc]

/-- Shape decomposition of a rendered `/v/` URL. -/
theorem renderUrl_vpath (sch sub : Option Bool) (vid trail : List Char) :
    renderUrl sch sub .vpath vid trail =
      schemeChars sch ++ subChars sub ++ "youtube.com".data ++
        '/' :: ("v/".data ++ (vid ++ trail)) := by
  simp [renderUrl, formChars, List.append_assoc]

/-! ## Claim C2 -/

/-- C2 (counterexample): the claim "for every URL string in one of the
four recognized link shapes ... the URL Matcher returns exactly the
identifier substring ID" is false as stated: `youtu.be/abc?v=def` is the
shortlink shape with identifier `abc` and trailing query text `?v=def`,
yet the matcher returns `def` (the first pattern alternative
`[\w\-]+\?v=` captures `abc?v=` as the path form and takes the token
after it). -/
theorem C2_counterexample :
    validVid "abc".data ∧ validTrail "?v=def".data ∧
    renderUrl none none .short "abc".data "?v=def".data = "youtu.be/abc?v=def".data ∧
    re_match_youtube "youtu.be/abc?v=def" = some "def" ∧ ("def" : String) ≠ "abc" :=
  ⟨by decide, by decide, by decide, by decide, by decide⟩

/-- C2 (amended): for every URL in one of the four recognized link
shapes — with or without `http`/`https` scheme, with or without a `www.`
or `m.` subdomain, with or without trailing query text — the matcher
returns exactly the identifier, with case preserved, provided that in
the shortlink shape the identifier-plus-trailing text does not itself
begin like one of the path forms (trailing text starting with `?v=`, or
identifier `embed` or `v` followed by a `/`-initial trail), in which
case the matcher instead returns the token after that re-formed
prefix. -/
theorem C2_amended (sch sub : Option Bool) (f : UrlForm) (vid trail : List Char)
    (hv : validVid vid) (ht : validTrail trail)
    (hshort : f = UrlForm.short →
      dropLit "?v=".data trail = none ∧
      ¬(vid = "embed".data ∧ trail.head? = some '/') ∧
      ¬(vid = "v".data ∧ trail.head? = some '/')) :
    re_match_list (renderUrl sch sub f vid trail) = some vid := by
  cases f with
  | watch =>
    rw [renderUrl_watch, re_match_front_com]
    exact watch_core vid trail hv ht
  | short =>
    obtain ⟨h1, h2, h3⟩ := hshort rfl
    rw [renderUrl_short, re_match_front_be]
    exact short_core vid trail hv ht h1 h2 h3
  | embed =>
    rw [renderUrl_embed, re_match_front_com]
    exact embed_core vid trail hv ht
  | vpath =>
    rw [renderUrl_vpath, re_match_front_com]
    exact vpath_core vid trail hv ht

/-- Witness for C2 (amended) at a concrete canonical URL with scheme,
subdomain and trailing query text. -/
theorem C2_amended_witness :
    re_match_list (renderUrl (some true) (some true) .watch "dQw4w9WgXcQ".data "&t=10s".data) =
      some "dQw4w9WgXcQ".data :=
  C2_amended (some true) (some true) .watch "dQw4w9WgXcQ".data "&t=10s".data
    (by decide) (by decide) (fun h => nomatch h)

/-! ## Claim C3 -/

/-- A successful `dropLit` leaves a suffix of the input. -/
theorem dropLit_suffix {l s r : List Char} (h : dropLit l s = some r) : r <:+ s :=
  ⟨l, (dropLit_eq_some.1 h).symm⟩

theorem skipScheme_suffix (s : List Char) : skipScheme s <:+ s := by
  unfold skipScheme
  split
  · rename_i r h
    exact dropLit_suffix h
  · split
    · rename_i r h
      exact dropLit_suffix h
    · split
      · rename_i r h
        exact dropLit_suffix h
      · exact List.suffix_refl s

theorem skipSub_suffix (s : List Char) : skipSub s <:+ s := by
  unfold skipSub
  split
  · rename_i r h
    exact dropLit_suffix h
  · split
    · rename_i r h
      exact dropLit_suffix h
    · exact List.suffix_refl s

theorem dropHost_suffix {s r : List Char} (h : dropHost s = some r) : r <:+ s := by
  unfold dropHost at h
  split at h
  · rename_i r2 h2
    cases h
    exact dropLit_suffix h2
  · rename_i h1
    split at h
    · rename_i c r3
      split at h
      · cases h
      · cases h
        exact ⟨['y', 'o', 'u', 't', 'u', c, 'b', 'e'], rfl⟩
    · cases h

/-- A successful match needs a `/` somewhere in the URL (the mandatory
slash opening capture group 4). -/
theorem re_match_list_has_slash {s v : List Char} (h : re_match_list s = some v) :
    '/' ∈ s := by
  unfold re_match_list at h
  split at h
  · cases h
  · rename_i h2
    split at h
    · rename_i r1
      have hsuf : '/' :: r1 <:+ s :=
        (dropHost_suffix h2).trans ((skipSub_suffix _).trans (skipScheme_suffix _))
      exact hsuf.subset (List.mem_cons_self '/' r1)
    · cases h

/-- C3 (counterexample): the claim "every URL string not in one of the
recognized link forms yields none" is false: the playlist URL
`https://www.youtube.com/playlist?list=PL123` is in none of the four
recognized shapes, yet the matcher extracts `playlist` from it (the
pattern accepts any single path token on the recognized hosts). -/
theorem C3_counterexample :
    (∀ (sch sub : Option Bool) (f : UrlForm) (vid trail : List Char),
        validVid vid → validTrail trail →
        renderUrl sch sub f vid trail ≠ "https://www.youtube.com/playlist?list=PL123".data) ∧
    re_match_youtube "https://www.youtube.com/playlist?list=PL123" = some "playlist" := by
  constructor
  · intro sch sub f vid trail hv ht h
    have hp : (schemeChars sch ++ subChars sub ++ formChars f) <+:
        "https://www.youtube.com/playlist?list=PL123".data := by
      rw [← h]
      exact ⟨vid ++ trail, by simp [renderUrl, List.append_assoc]⟩
    revert hp
    rcases sch with _ | b <;> rcases sub with _ | c <;> cases f <;>
      (try cases b) <;> (try cases c) <;> decide
  · decide

/-- C3 (amended): an entry contributes an identifier to the candidate
set exactly when the matcher returns that identifier on its link, so
entries on which the matcher returns none are silently skipped; any
string containing no `/` (in particular arbitrary malformed strings
without URL structure) never matches.  (As the counterexample shows,
the matcher does accept some URLs outside the four recognized shapes,
e.g. host-plus-single-token URLs, which then do contribute.) -/
theorem C3_amended :
    (∀ (st : String) (mv : Nat) (c : RedditClient) (x : String),
        x ∈ reddit_retrieve_submissions st mv c ↔
          ∃ s ∈ select_submissions st c mv, re_match_youtube s.url = some x) ∧
    (∀ s : String, (∀ ch ∈ s.data, ch ≠ '/') → re_match_youtube s = none) := by
  constructor
  · intro st mv c x
    simp [reddit_retrieve_submissions, List.mem_filterMap]
  · intro s hs
    unfold re_match_youtube
    cases h : re_match_list s.data with
    | none => rfl
    | some v => exact absurd rfl (hs '/' (re_match_list_has_slash h))

/-- Witness for C3 (amended): the characterization applied to the
two-video feed and the no-match string `not a url`. -/
theorem C3_amended_witness :
    ("aa" ∈ reddit_retrieve_submissions "hot" 20 rc2 ↔
      ∃ s ∈ select_submissions "hot" rc2 20, re_match_youtube s.url = some "aa") ∧
    re_match_youtube "not a url" = none :=
  ⟨C3_amended.1 "hot" 20 rc2 "aa", C3_amended.2 "not a url" (by decide)⟩

/-! ## Lemmas about the insertion loop -/

/-- The writer reports `inserted` exactly when the upstream insertion
request succeeded. -/
theorem inserted_iff_success (env : String → InsertResult) (u : String) :
    insert_playlist_videos env u = .inserted ↔ env u = .success := by
  cases h : env u with
  | success => simp [insert_playlist_videos, h]
  | httpError st r =>
    simp only [insert_playlist_videos, h]
    constructor
    · intro hin
      split at hin <;> cases hin
    · intro hin
      cases hin

/-- When no insertion signals the fatal quota error, the loop runs to
completion: every candidate is invoked and no exit is requested. -/
theorem insert_loop_nofatal (env : String → InsertResult) (l : List String)
    (h : ∀ u ∈ l, insert_playlist_videos env u ≠ .fatalQuota) :
    (insert_loop env l).invoked = l ∧ (insert_loop env l).exitCode = none := by
  induction l with
  | nil => exact ⟨rfl, rfl⟩
  | cons v rest ih =>
    have hv := h v (List.mem_cons_self v rest)
    have ih2 := ih (fun u hu => h u (List.mem_cons_of_mem _ hu))
    cases hw : insert_playlist_videos env v with
    | fatalQuota => exact absurd hw hv
    | inserted => simp [insert_loop, hw, ih2.1, ih2.2]
    | skipped => simp [insert_loop, hw, ih2.1, ih2.2]

/-- The invoked candidates always form a prefix of the loop's input. -/
theorem insert_loop_invoked_front (env : String → InsertResult) (l : List String) :
    (insert_loop env l).invoked <+: l := by
  induction l with
  | nil => simp [insert_loop]
  | cons v rest ih =>
    cases hw : insert_playlist_videos env v with
    | fatalQuota =>
      simp only [insert_loop, hw]
      exact ⟨rest, rfl⟩
    | inserted =>
      simp only [insert_loop, hw]
      exact (List.prefix_cons_inj v).2 ih
    | skipped =>
      simp only [insert_loop, hw]
      exact (List.prefix_cons_inj v).2 ih

/-- Splitting rule for the loop when the first fatal quota error strikes
at candidate `v`: everything before `v` is processed, `v` is invoked,
the successes are the successful insertions before `v`, the loop exits
with code 1, and nothing after `v` is attempted. -/
theorem insert_loop_quota (env : String → InsertResult) (pre post : List String) (v : String)
    (h1 : ∀ u ∈ pre, insert_playlist_videos env u ≠ .fatalQuota)
    (h2 : insert_playlist_videos env v = .fatalQuota) :
    insert_loop env (pre ++ v :: post) =
      ⟨pre ++ [v], pre.filter (fun u => decide (env u = .success)), some 1⟩ := by
  induction pre with
  | nil => simp [insert_loop, h2]
  | cons u pre2 ih =>
    have hu := h1 u (List.mem_cons_self u pre2)
    have ih2 := ih (fun w hw => h1 w (List.mem_cons_of_mem _ hw))
    cases hw : insert_playlist_videos env u with
    | fatalQuota => exact absurd hw hu
    | inserted =>
      have hsucc : env u = .success := (inserted_iff_success env u).1 hw
      simp [insert_loop, hw, ih2, List.filter_cons, hsucc]
    | skipped =>
      have hns : ¬(env u = .success) := by
        intro hs
        rw [(inserted_iff_success env u).2 hs] at hw
        cases hw
      simp [insert_loop, hw, ih2, List.filter_cons, hns]

/-! ## Claim C4 -/

/-- C4: if, while inserting, a request fails with an HTTP error whose
status is 403 and whose stripped reason text contains "quota", the run
terminates immediately with exit code 1: the writer is invoked on the
failing candidate and on no later one, and the successful insertions are
exactly the successes among the earlier candidates. -/
theorem C4_quota_aborts_run (cliMax : Option Nat) (cliOrder : Option String) (env : RunEnv)
    (c : RedditCreds) (pre post : List String) (v : String) (st : Nat) (reason : String)
    (hc : env.redditCreds = some c)
    (hl : to_add_list env.pages (cliOrder.getD "hot") (cliMax.getD 20) env.rclient =
      pre ++ v :: post)
    (h1 : ∀ u ∈ pre, insert_playlist_videos env.insertEnv u ≠ .fatalQuota)
    (h2 : env.insertEnv v = .httpError st reason)
    (h3 : isQuotaError st reason = true) :
    (run cliMax cliOrder env).invoked = pre ++ [v] ∧
    (run cliMax cliOrder env).succeeded =
      pre.filter (fun u => decide (env.insertEnv u = .success)) ∧
    (run cliMax cliOrder env).exitCode = 1 := by
  have hv : insert_playlist_videos env.insertEnv v = .fatalQuota := by
    unfold insert_playlist_videos
    rw [h2]
    show (if isQuotaError st reason = true then WriterResult.fatalQuota
      else WriterResult.skipped) = WriterResult.fatalQuota
    rw [if_pos h3]
  have hloop := insert_loop_quota env.insertEnv pre post v h1 hv
  have hrun : run cliMax cliOrder env =
      ⟨(get_current_playlist_videos env.pages).2, true,
        (insert_loop env.insertEnv
          (to_add_list env.pages (cliOrder.getD "hot") (cliMax.getD 20) env.rclient)).invoked,
        (insert_loop env.insertEnv
          (to_add_list env.pages (cliOrder.getD "hot") (cliMax.getD 20) env.rclient)).succeeded,
        (insert_loop env.insertEnv
          (to_add_list env.pages (cliOrder.getD "hot") (cliMax.getD 20) env.rclient)).exitCode.getD 0⟩ := by
    unfold run
    rw [hc]
    rfl
  rw [hrun, hl, hloop]
  exact ⟨rfl, rfl, rfl⟩

/-- Witness for C4: the five-candidate scenario in which the third
insertion hits the quota — exactly two insertions succeed, the third
candidate is the last one invoked, and the exit code is 1. -/
theorem C4_witness :
    (run none none runEnv5).invoked = ["aa", "bb", "cc"] ∧
    (run none none runEnv5).succeeded = ["aa", "bb"] ∧
    (run none none runEnv5).exitCode = 1 := by
  have h := C4_quota_aborts_run none none runEnv5 ⟨"id", "secret"⟩ ["aa", "bb"] ["dd", "ee"]
    "cc" 403 "quotaExceeded" rfl (by decide) (by decide) (by decide) (by decide)
  refine ⟨h.1, ?_, h.2.2⟩
  rw [h.2.1]
  decide

/-! ## Claim C5 -/

/-- C5: a non-quota insertion failure is non-fatal: the writer swallows
it (`skipped`), the set of successful insertions and the exit outcome
are as if the failing candidate had not been in the list, the failing
candidate is not added, and — provided no earlier candidate aborts the
run — the loop goes on to process exactly the remaining candidates, with
no retry of the failed one. -/
theorem C5_other_failures_continue (env : String → InsertResult) (pre post : List String)
    (v : String) (st : Nat) (reason : String)
    (h2 : env v = .httpError st reason) (h3 : isQuotaError st reason = false) :
    insert_playlist_videos env v = .skipped ∧
    (insert_loop env (pre ++ v :: post)).succeeded =
      (insert_loop env (pre ++ post)).succeeded ∧
    (insert_loop env (pre ++ v :: post)).exitCode =
      (insert_loop env (pre ++ post)).exitCode ∧
    ((∀ u ∈ pre, insert_playlist_videos env u ≠ .fatalQuota) →
      (insert_loop env (pre ++ v :: post)).invoked =
        pre ++ v :: (insert_loop env post).invoked) := by
  have hw : insert_playlist_videos env v = .skipped := by
    unfold insert_playlist_videos
    rw [h2]
    show (if isQuotaError st reason = true then WriterResult.fatalQuota
      else WriterResult.skipped) = WriterResult.skipped
    rw [if_neg (by simp [h3])]
  have main : ∀ pre2 : List String,
      (insert_loop env (pre2 ++ v :: post)).succeeded =
        (insert_loop env (pre2 ++ post)).succeeded ∧
      (insert_loop env (pre2 ++ v :: post)).exitCode =
        (insert_loop env (pre2 ++ post)).exitCode := by
    intro pre2
    induction pre2 with
    | nil => simp [insert_loop, hw]
    | cons u rest ih =>
      cases hu : insert_playlist_videos env u with
      | fatalQuota => simp [insert_loop, hu]
      | inserted => simp [insert_loop, hu, ih.1, ih.2]
      | skipped => simp [insert_loop, hu, ih.1, ih.2]
  have inv : ∀ pre2 : List String,
      (∀ u ∈ pre2, insert_playlist_videos env u ≠ .fatalQuota) →
      (insert_loop env (pre2 ++ v :: post)).invoked =
        pre2 ++ v :: (insert_loop env post).invoked := by
    intro pre2
    induction pre2 with
    | nil =>
      intro _
      simp [insert_loop, hw]
    | cons u rest ih =>
      intro hp
      have hu := hp u (List.mem_cons_self u rest)
      have ih2 := ih (fun w hwm => hp w (List.mem_cons_of_mem _ hwm))
      cases hq : insert_playlist_videos env u with
      | fatalQuota => exact absurd hq hu
      | inserted => simp [insert_loop, hq, ih2]
      | skipped => simp [insert_loop, hq, ih2]
  exact ⟨hw, (main pre).1, (main pre).2, inv pre⟩

/-- Witness for C5: a transient 500 on the middle candidate of three is
skipped, the other two are inserted, and the run completes. -/
theorem C5_witness :
    insert_playlist_videos env500 "bb" = .skipped ∧
    (insert_loop env500 ["aa", "bb", "cc"]).succeeded =
      (insert_loop env500 ["aa", "cc"]).succeeded ∧
    (insert_loop env500 ["aa", "bb", "cc"]).exitCode =
      (insert_loop env500 ["aa", "cc"]).exitCode ∧
    (insert_loop env500 ["aa", "bb", "cc"]).invoked =
      ["aa"] ++ "bb" :: (insert_loop env500 ["cc"]).invoked := by
  have h := C5_other_failures_continue env500 ["aa"] ["cc"] "bb" 500 "Backend Error"
    (by decide) (by decide)
  exact ⟨h.1, h.2.1, h.2.2.1, h.2.2.2 (by decide)⟩

/-! ## Claim C1 -/

/-- The loop's enumeration of `C − M` has no duplicates. -/
theorem to_add_list_nodup (pages : List Page) (st : String) (mv : Nat) (rc : RedditClient) :
    (to_add_list pages st mv rc).Nodup :=
  (candidate_list st mv rc).nodup_dedup.filter _

/-- Membership in the loop's enumeration is exactly membership in
`C − M`. -/
theorem mem_to_add_list (pages : List Page) (st : String) (mv : Nat) (rc : RedditClient)
    (x : String) :
    x ∈ to_add_list pages st mv rc ↔
      x ∈ reddit_retrieve_submissions st mv rc ∧
        x ∉ (get_current_playlist_videos pages).1 := by
  simp [to_add_list, candidate_list, reddit_retrieve_submissions, List.mem_filter]

/-- C1 (counterexample): the claim "the Playlist Writer is invoked
exactly once for each identifier in `C − M`" is false as stated when an
insertion hits the quota: with candidates `{aa, bb}`, an empty playlist
and every insertion answering 403/quota, the run aborts on the first
candidate and `bb ∈ C − M` is never invoked. -/
theorem C1_counterexample :
    "bb" ∈ (build_playlist pages0 "hot" 20 rc2 envAllQuota).2.1 \
        (build_playlist pages0 "hot" 20 rc2 envAllQuota).1 ∧
    "bb" ∉ (build_playlist pages0 "hot" 20 rc2 envAllQuota).2.2.invoked := by
  decide

/-- C1 (amended): in every run, each writer invocation is on an
identifier of `C − M` (in particular never on one already in `M`) and no
identifier is invoked more than once; provided no insertion signals the
fatal quota error, the writer is invoked exactly once for each
identifier of `C − M` and for no other identifier. -/
theorem C1_sync_inserts_diff (pages : List Page) (st : String) (mv : Nat)
    (rc : RedditClient) (env : String → InsertResult) :
    (∀ x ∈ (build_playlist pages st mv rc env).2.2.invoked,
        x ∈ reddit_retrieve_submissions st mv rc ∧
          x ∉ (get_current_playlist_videos pages).1) ∧
    (∀ x : String, (build_playlist pages st mv rc env).2.2.invoked.count x ≤ 1) ∧
    ((∀ u : String, insert_playlist_videos env u ≠ .fatalQuota) →
      ∀ x : String, (build_playlist pages st mv rc env).2.2.invoked.count x =
        if x ∈ reddit_retrieve_submissions st mv rc \ (get_current_playlist_videos pages).1
        then 1 else 0) := by
  have hb : (build_playlist pages st mv rc env).2.2 =
      insert_loop env (to_add_list pages st mv rc) := rfl
  have hpre := insert_loop_invoked_front env (to_add_list pages st mv rc)
  refine ⟨?_, ?_, ?_⟩
  · intro x hx
    rw [hb] at hx
    exact (mem_to_add_list pages st mv rc x).1 (hpre.subset hx)
  · intro x
    rw [hb]
    have hnd : (insert_loop env (to_add_list pages st mv rc)).invoked.Nodup :=
      (to_add_list_nodup pages st mv rc).sublist hpre.sublist
    exact List.nodup_iff_count_le_one.1 hnd x
  · intro hnf x
    rw [hb, (insert_loop_nofatal env _ (fun u _ => hnf u)).1,
      List.count_eq_of_nodup (to_add_list_nodup pages st mv rc)]
    by_cases hx : x ∈ to_add_list pages st mv rc
    · rw [if_pos hx, if_pos]
      rw [Finset.mem_sdiff]
      exact (mem_to_add_list pages st mv rc x).1 hx
    · rw [if_neg hx, if_neg]
      rw [Finset.mem_sdiff]
      intro hc
      exact hx ((mem_to_add_list pages st mv rc x).2 hc)

/-- Witness for C1 (amended): with an empty playlist, the two-video feed
and all insertions succeeding, `aa` is invoked exactly once. -/
theorem C1_witness :
    (build_playlist pages0 "hot" 20 rc2 envAllOk).2.2.invoked.count "aa" =
      (if "aa" ∈ reddit_retrieve_submissions "hot" 20 rc2 \
          (get_current_playlist_videos pages0).1 then 1 else 0) :=
  (C1_sync_inserts_diff pages0 "hot" 20 rc2 envAllOk).2.2
    (fun u => by simp [insert_playlist_videos, envAllOk]) "aa"

/-! ## Claim C6 -/

/-- The cursor loop on a response chain whose inner pages all supply a
cursor and whose last page supplies none: every page is consumed, one
request per page, each with `maxResults = 50`. -/
theorem pageLoop_chain (ps : List Page) (plast : Page) (tok : String)
    (hps : ∀ p ∈ ps, p.nextPageToken.isSome) (hlast : plast.nextPageToken = none) :
    (pageLoop (some tok) (ps ++ [plast])).1 =
      (ps ++ [plast]).foldr (fun p acc => p.items.toFinset ∪ acc) ∅ ∧
    (pageLoop (some tok) (ps ++ [plast])).2.length = ps.length + 1 ∧
    ∀ r ∈ (pageLoop (some tok) (ps ++ [plast])).2, r.maxResults = 50 := by
  induction ps generalizing tok with
  | nil =>
    refine ⟨?_, ?_, ?_⟩ <;> simp [pageLoop, hlast]
  | cons p ps2 ih =>
    obtain ⟨t2, ht2⟩ := Option.isSome_iff_exists.1 (hps p (List.mem_cons_self p ps2))
    have ih2 := ih t2 (fun q hq => hps q (List.mem_cons_of_mem _ hq))
    refine ⟨?_, ?_, ?_⟩
    · simp [pageLoop, ht2, ih2.1]
    · simp [pageLoop, ht2, ih2.2.1]
    · intro r hr
      simp only [pageLoop, ht2, List.cons_append, List.mem_cons] at hr
      rcases hr with hr | hr
      · rw [hr]
      · exact ih2.2.2 r hr

/-- C6: the Playlist Reader requests pages with `maxResults = 50`,
issues exactly one request per returned page — continuing precisely
while a continuation cursor is supplied and stopping at the first page
without one — and returns the union of the identifiers of all pages. -/
theorem C6_pagination_reads_all (ps : List Page) (plast : Page)
    (hps : ∀ p ∈ ps, p.nextPageToken.isSome) (hlast : plast.nextPageToken = none) :
    (get_current_playlist_videos (ps ++ [plast])).1 =
      (ps ++ [plast]).foldr (fun p acc => p.items.toFinset ∪ acc) ∅ ∧
    (get_current_playlist_videos (ps ++ [plast])).2.length = (ps ++ [plast]).length ∧
    ∀ r ∈ (get_current_playlist_videos (ps ++ [plast])).2, r.maxResults = 50 := by
  cases ps with
  | nil =>
    refine ⟨?_, ?_, ?_⟩ <;> simp [get_current_playlist_videos, pageLoop, hlast]
  | cons p ps2 =>
    obtain ⟨t2, ht2⟩ := Option.isSome_iff_exists.1 (hps p (List.mem_cons_self p ps2))
    have hch := pageLoop_chain ps2 plast t2 (fun q hq => hps q (List.mem_cons_of_mem _ hq)) hlast
    refine ⟨?_, ?_, ?_⟩
    · simp [get_current_playlist_videos, ht2, hch.1]
    · simp [get_current_playlist_videos, ht2, hch.2.1]
    · intro r hr
      simp only [get_current_playlist_videos, ht2, List.cons_append, List.mem_cons] at hr
      rcases hr with hr | hr
      · rw [hr]
      · exact hch.2.2 r hr

/-- Witness for C6: a 150-item playlist served over three 50-item pages
with cursors on pages 1 and 2 and none on page 3 is read with exactly 3
requests, each asking for at most 50 items, and the union of all three
pages is returned. -/
theorem C6_witness :
    (get_current_playlist_videos pages3).1 =
      pages3.foldr (fun p acc => p.items.toFinset ∪ acc) ∅ ∧
    (get_current_playlist_videos pages3).2.length = 3 ∧
    ∀ r ∈ (get_current_playlist_videos pages3).2, r.maxResults = 50 := by
  have h := C6_pagination_reads_all [page50 "a" (some "t1"), page50 "b" (some "t2")]
    (page50 "c" none) (by decide) rfl
  exact ⟨h.1, h.2.1, h.2.2⟩

/-! ## Claim C7 -/

/-- When every insertion request succeeds, the loop inserts its whole
input in order. -/
theorem insert_loop_success (env : String → InsertResult) (hs : ∀ u, env u = .success)
    (l : List String) : insert_loop env l = ⟨l, l, none⟩ := by
  induction l with
  | nil => rfl
  | cons v rest ih =>
    have hw : insert_playlist_videos env v = .inserted :=
      (inserted_iff_success env v).2 (hs v)
    simp [insert_loop, hw, ih]

/-- The loop's enumeration, as a set, is exactly `C − M`. -/
theorem to_add_list_toFinset (pages : List Page) (st : String) (mv : Nat)
    (rc : RedditClient) :
    (to_add_list pages st mv rc).toFinset =
      reddit_retrieve_submissions st mv rc \ (get_current_playlist_videos pages).1 := by
  ext x
  rw [List.mem_toFinset, mem_to_add_list, Finset.mem_sdiff]

/-- C7: running the Synchronizer a second time, on a playlist that now
contains the first run's insertions and the original membership and with
the same unchanged feed and no failures, performs zero insertions: the
second run's set difference is empty. -/
theorem C7_second_run_empty (pages1 pages2 : List Page) (st : String) (mv : Nat)
    (rc : RedditClient) (env : String → InsertResult)
    (hs : ∀ u, env u = .success)
    (h2 : (get_current_playlist_videos pages2).1 =
      (get_current_playlist_videos pages1).1 ∪
        (build_playlist pages1 st mv rc env).2.2.succeeded.toFinset) :
    (build_playlist pages2 st mv rc env).2.2.invoked = [] ∧
    (build_playlist pages2 st mv rc env).2.2.succeeded = [] := by
  have hb1 : (build_playlist pages1 st mv rc env).2.2 =
      insert_loop env (to_add_list pages1 st mv rc) := rfl
  have hsucc1 : (build_playlist pages1 st mv rc env).2.2.succeeded =
      to_add_list pages1 st mv rc := by
    rw [hb1, insert_loop_success env hs]
  have hm2 : (get_current_playlist_videos pages2).1 =
      (get_current_playlist_videos pages1).1 ∪
        (reddit_retrieve_submissions st mv rc \ (get_current_playlist_videos pages1).1) := by
    rw [h2, hsucc1, to_add_list_toFinset]
  have hempty : to_add_list pages2 st mv rc = [] := by
    rw [List.eq_nil_iff_forall_not_mem]
    intro x hx
    obtain ⟨hxc, hxm⟩ := (mem_to_add_list pages2 st mv rc x).1 hx
    apply hxm
    rw [hm2, Finset.mem_union]
    by_cases hm1 : x ∈ (get_current_playlist_videos pages1).1
    · exact Or.inl hm1
    · exact Or.inr (Finset.mem_sdiff.2 ⟨hxc, hm1⟩)
  have hb2 : (build_playlist pages2 st mv rc env).2.2 =
      insert_loop env (to_add_list pages2 st mv rc) := rfl
  rw [hb2, hempty]
  exact ⟨rfl, rfl⟩

/-- Witness for C7: first run adds `aa` to the empty playlist; the
second run, seeing `{aa}`, inserts nothing. -/
theorem C7_witness :
    (build_playlist pagesAA "hot" 20 rc1 envAllOk).2.2.invoked = [] ∧
    (build_playlist pagesAA "hot" 20 rc1 envAllOk).2.2.succeeded = [] :=
  C7_second_run_empty pages0 pagesAA "hot" 20 rc1 envAllOk (fun u => rfl) (by decide)

/-! ## Claim C8 -/

/-- C8: each ranking mode of the fixed enumeration selects exactly the
correspondingly named endpoint, passing the `limit` through, and an
absent `--max-videos` option behaves exactly like the default 20. -/
theorem C8_ranking_endpoints :
    (∀ (c : RedditClient) (limit : Nat),
      select_submissions "hot" c limit = c.hot limit ∧
      select_submissions "new" c limit = c.new limit ∧
      select_submissions "top" c limit = c.top limit ∧
      select_submissions "controversial" c limit = c.controversial limit ∧
      select_submissions "rising" c limit = c.rising limit) ∧
    SEARCH_OPTIONS = ["hot", "new", "top", "controversial", "rising"] ∧
    (∀ (cliOrder : Option String) (env : RunEnv),
      run none cliOrder env = run (some 20) cliOrder env) := by
  refine ⟨?_, rfl, ?_⟩
  · intro c limit
    refine ⟨?_, ?_, ?_, ?_, ?_⟩ <;> rfl
  · intro cliOrder env
    rfl

/-! ## Claim C9 -/

/-- C9: with the feed-service credentials missing or unreadable the
process exits with code 1 before issuing any playlist request, feed
query or insertion; a run whose insertions never hit the fatal quota
error (including one that adds nothing) exits with code 0. -/
theorem C9_exit_codes (cliMax : Option Nat) (cliOrder : Option String) (env : RunEnv) :
    (env.redditCreds = none → run cliMax cliOrder env = ⟨[], false, [], [], 1⟩) ∧
    (env.redditCreds ≠ none →
      (∀ u : String, insert_playlist_videos env.insertEnv u ≠ .fatalQuota) →
      (run cliMax cliOrder env).exitCode = 0) := by
  constructor
  · intro h
    unfold run
    rw [h]
    rfl
  · intro h hnf
    obtain ⟨c, hc⟩ := Option.ne_none_iff_exists'.1 h
    unfold run
    rw [hc]
    show (insert_loop env.insertEnv
      (to_add_list env.pages (cliOrder.getD "hot") (cliMax.getD 20) env.rclient)).exitCode.getD 0 = 0
    rw [(insert_loop_nofatal env.insertEnv _ (fun u _ => hnf u)).2]
    rfl

/-- Witness for C9: a run with missing credentials does no work and
exits 1; a normal run exits 0. -/
theorem C9_witness :
    run none none runEnvNone = ⟨[], false, [], [], 1⟩ ∧
    (run none none runEnvOk).exitCode = 0 :=
  ⟨(C9_exit_codes none none runEnvNone).1 rfl,
   (C9_exit_codes none none runEnvOk).2 (by simp [runEnvOk])
     (fun u => by simp [insert_playlist_videos, runEnvOk, envAllOk])⟩

/-! ## Claim C10 -/

/-- C10: any ranking mode other than `top`, `new`, `controversial` and
`rising` — not only `hot` — falls through the chained conditional to the
`hot` endpoint. -/
theorem C10_default_hot (st : String) (c : RedditClient) (limit : Nat)
    (h1 : st ≠ "top") (h2 : st ≠ "new") (h3 : st ≠ "controversial") (h4 : st ≠ "rising") :
    select_submissions st c limit = c.hot limit := by
  simp [select_submissions, h1, h2, h3, h4]

/-- Witness for C10: the unrecognized mode `weird` queries `hot`. -/
theorem C10_witness : select_submissions "weird" rc2 20 = rc2.hot 20 :=
  C10_default_hot "weird" rc2 20 (by decide) (by decide) (by decide) (by decide)

end Youddit
